import Mathlib

/-!
Verification of the `gut` synchronization orchestrator (`src/gut/shell.py`).

The development shallowly embeds the pure decision logic and the operation
traces of the orchestrator:

* strings are modelled as `List Char` where character-level computation
  matters (path splitting, common-prefix reduction, stripping), and as Lean
  `String` where they are only compared for equality (tail hashes, paths in
  operation traces);
* the filesystem and the backend are abstracted by explicit inputs (does the
  repository marker exist, what did the query print, did a command raise a
  backend execution error);
* straight-line effectful procedures are embedded as traces of operations
  (`GutOp`, `SyncAction`) in program order;
* the watch/debounce loop is embedded as a step function consuming a list of
  queue outcomes (an arriving event or a debounce timeout).
-/

set_option autoImplicit false

/-- String prefix relation on character lists: `listPre p q` states that the
character list `p` is a leading segment of `q`. -/
def listPre (p q : List Char) : Prop := ∃ t, p ++ t = q

/-- Boolean decision procedure for `listPre`. -/
def isPreB : List Char → List Char → Bool
  | [], _ => true
  | _ :: _, [] => false
  | a :: as, b :: bs => a = b && isPreB as bs

theorem isPreB_iff : ∀ p q : List Char, isPreB p q = true ↔ listPre p q := by
  intro p
  induction p with
  | nil =>
    intro q
    simp [isPreB, listPre]
  | cons a as ih =>
    intro q
    cases q with
    | nil =>
      simp [isPreB, listPre]
    | cons b bs =>
      simp only [isPreB, Bool.and_eq_true, decide_eq_true_eq, ih bs, listPre]
      constructor
      · rintro ⟨rfl, t, rfl⟩
        exact ⟨t, rfl⟩
      · rintro ⟨t, h⟩
        have hab : a = b := by
          have := congrArg (fun l => l.head?) h
          simpa using this
        constructor
        · exact hab
        · refine ⟨t, ?_⟩
          have := congrArg (fun l => l.tail) h
          simpa using this

instance (p q : List Char) : Decidable (listPre p q) :=
  decidable_of_iff (isPreB p q = true) (isPreB_iff p q)

theorem listPre_refl (l : List Char) : listPre l l := ⟨[], List.append_nil l⟩

theorem listPre_trans {a b c : List Char} (h1 : listPre a b) (h2 : listPre b c) :
    listPre a c := by
  obtain ⟨t1, rfl⟩ := h1
  obtain ⟨t2, rfl⟩ := h2
  exact ⟨t1 ++ t2, (List.append_assoc a t1 t2).symm⟩

/-- Longest common leading segment of two character lists.  This is the
binary step of `os.path.commonprefix`, which compares paths character by
character. -/
def lcp : List Char → List Char → List Char
  | a :: as, b :: bs => if a = b then a :: lcp as bs else []
  | _, _ => []

theorem lcp_pre_left : ∀ a b : List Char, listPre (lcp a b) a := by
  intro a
  induction a with
  | nil =>
    intro b
    cases b <;> exact ⟨[], rfl⟩
  | cons x xs ih =>
    intro b
    cases b with
    | nil => exact ⟨x :: xs, rfl⟩
    | cons y ys =>
      by_cases hxy : x = y
      · obtain ⟨t, ht⟩ := ih ys
        exact ⟨t, by simp [lcp, hxy, ht]⟩
      · exact ⟨x :: xs, by simp [lcp, hxy]⟩

theorem lcp_pre_right : ∀ a b : List Char, listPre (lcp a b) b := by
  intro a
  induction a with
  | nil =>
    intro b
    cases b <;> exact ⟨_, rfl⟩
  | cons x xs ih =>
    intro b
    cases b with
    | nil => exact ⟨[], rfl⟩
    | cons y ys =>
      by_cases hxy : x = y
      · obtain ⟨t, ht⟩ := ih ys
        subst hxy
        exact ⟨t, by simp [lcp, ht]⟩
      · exact ⟨y :: ys, by simp [lcp, hxy]⟩

/-- `os.path.commonprefix` over a nonempty family: the longest character-level
common leading segment of all the given paths (empty input yields the empty
string, as in the Python standard library). -/
def commonPrefixAll : List (List Char) → List Char
  | [] => []
  | p :: ps => ps.foldl lcp p

theorem foldl_lcp_pre_acc (ps : List (List Char)) :
    ∀ acc, listPre (ps.foldl lcp acc) acc := by
  induction ps with
  | nil => intro acc; exact listPre_refl acc
  | cons q qs ih =>
    intro acc
    have h1 : listPre (qs.foldl lcp (lcp acc q)) (lcp acc q) := ih (lcp acc q)
    exact listPre_trans (by simpa using h1) (lcp_pre_left acc q)

theorem foldl_lcp_pre_mem (ps : List (List Char)) :
    ∀ acc q, q ∈ ps → listPre (ps.foldl lcp acc) q := by
  induction ps with
  | nil =>
    intro acc q h
    exact absurd h (List.not_mem_nil q)
  | cons x xs ih =>
    intro acc q h
    rcases List.mem_cons.mp h with h1 | h2
    · subst h1
      exact listPre_trans (by simpa using foldl_lcp_pre_acc xs (lcp acc q))
        (lcp_pre_right acc q)
    · exact ih (lcp acc x) q h2

theorem commonPrefixAll_pre (ps : List (List Char)) (q : List Char) (h : q ∈ ps) :
    listPre (commonPrefixAll ps) q := by
  cases ps with
  | nil => cases h
  | cons p rest =>
    rcases List.mem_cons.mp h with h1 | h2
    · subst h1
      simpa [commonPrefixAll] using foldl_lcp_pre_acc rest q
    · simpa [commonPrefixAll] using foldl_lcp_pre_mem rest p q h2

/-- Everything after the first occurrence of `sep`, or `[]` when `sep` does
not occur.  Applied to a reversed list this realizes the "part before the
last separator" component of Python's `str.rpartition`. -/
def afterFirst (sep : Char) : List Char → List Char
  | [] => []
  | c :: cs => if c = sep then cs else afterFirst sep cs

theorem afterFirst_eq_nil {sep : Char} : ∀ {l : List Char}, sep ∉ l →
    afterFirst sep l = [] := by
  intro l
  induction l with
  | nil => intro _; rfl
  | cons c cs ih =>
    intro h
    have hc : ¬ c = sep := fun he => h (by simp [he])
    have hcs : sep ∉ cs := fun hm => h (List.mem_cons_of_mem c hm)
    simp [afterFirst, hc, ih hcs]

theorem afterFirst_split {sep : Char} : ∀ {l : List Char}, sep ∈ l →
    ∃ pre, l = pre ++ sep :: afterFirst sep l := by
  intro l
  induction l with
  | nil => intro h; cases h
  | cons c cs ih =>
    intro h
    by_cases hc : c = sep
    · subst hc
      exact ⟨[], by simp [afterFirst]⟩
    · have hm : sep ∈ cs := by
        rcases List.mem_cons.mp h with h1 | h2
        · exact absurd h1.symm hc
        · exact h2
      obtain ⟨pre, hpre⟩ := ih hm
      refine ⟨c :: pre, ?_⟩
      have hstep : afterFirst sep (c :: cs) = afterFirst sep cs := by
        simp [afterFirst, hc]
      rw [hstep]
      simpa using congrArg (fun l => c :: l) hpre

/-- `s.rpartition(sep)[0]` from `commit_and_update`: the part of `s` strictly
before the last occurrence of `sep`, or the empty string when `sep` does not
occur in `s`. -/
def rpartitionBefore (sep : Char) (s : List Char) : List Char :=
  (afterFirst sep s.reverse).reverse

theorem rpartitionBefore_pre (sep : Char) (s : List Char) :
    rpartitionBefore sep s = [] ∨ listPre (rpartitionBefore sep s ++ [sep]) s := by
  by_cases h : sep ∈ s.reverse
  · right
    obtain ⟨pre, hpre⟩ := afterFirst_split h
    show ∃ t, ((afterFirst sep s.reverse).reverse ++ [sep]) ++ t = s
    refine ⟨pre.reverse, ?_⟩
    generalize hA : afterFirst sep s.reverse = A at hpre ⊢
    have h2 := congrArg List.reverse hpre
    rw [List.reverse_reverse] at h2
    rw [h2]
    simp
  · left
    simp [rpartitionBefore, afterFirst_eq_nil h]

/-- Platform-specific path separator chosen in `commit_and_update`
(line 299 of `shell.py`): backslash on Windows, slash otherwise. -/
def sepOf (isWindows : Bool) : Char :=
  if isWindows then '\\' else '/'

/-- Staging-prefix computation of `commit_and_update` (lines 290-300 of
`shell.py`): with no changed paths the prefix is the root `"."`; otherwise it
is the longest common character prefix of the changed paths, cut back to the
part before its last path separator, falling back to `"."` when that cut
yields the empty string (Python's `or` on a falsy string). -/
def commonPrefixTrim (isWindows : Bool) (changedPaths : List (List Char)) :
    List Char :=
  if changedPaths.isEmpty then ['.']
  else
    let t := rpartitionBefore (sepOf isWindows) (commonPrefixAll changedPaths)
    if t.isEmpty then ['.'] else t

/-- Python `str.strip()` on a character list: remove leading and trailing
whitespace. -/
def pyStrip (s : List Char) : List Char :=
  ((s.dropWhile Char.isWhitespace).reverse.dropWhile Char.isWhitespace).reverse

/-- Python truthiness of an optional string: `None` and the empty string are
falsy, any other string is truthy. -/
def pyTruthy : Option String → Bool
  | none => false
  | some s => !s.isEmpty

/-- `get_tail_hash` (lines 46-55 of `shell.py`), abstracted over its two
effectful inputs: whether the `.gut` repository marker directory exists under
the sync path, and the stdout of the backend query
`gut rev-list --max-parents=0 HEAD` (run with `retcode=None`, so a failing
invocation surfaces only as its — typically empty — output).  The result is
the stripped query output, with the empty string collapsed to `none` by
Python's `or None`; without the marker the query is not run at all. -/
def get_tail_hash (gutMarkerExists : Bool) (revListOutput : List Char) :
    Option (List Char) :=
  if gutMarkerExists then
    let s := pyStrip revListOutput
    if s.isEmpty then none else some s
  else
    none

/-- Outcome of the repository-compatibility decision taken by `sync`
(lines 237-269 of `shell.py`). -/
inductive SyncDecision where
  | compatible
  | adoptRemoteFromLocal
  | adoptLocalFromRemote
  | initBoth
  | fatalIncompatible
deriving DecidableEq

/-- The compatibility decision of `sync` as a pure function of the two tail
hashes, mirroring the branch structure of lines 238-267 of `shell.py`
(Python truthiness of the hash strings, equality of the two values). -/
def syncDecision (l r : Option String) : SyncDecision :=
  if pyTruthy l = false ∨ l ≠ r then
    if pyTruthy l = true ∧ pyTruthy r = false then SyncDecision.adoptRemoteFromLocal
    else if pyTruthy r = true ∧ pyTruthy l = false then SyncDecision.adoptLocalFromRemote
    else if pyTruthy l = false ∧ pyTruthy r = false then SyncDecision.initBoth
    else SyncDecision.fatalIncompatible
  else SyncDecision.compatible

/-- One backend invocation issued by the bootstrap phase of `sync`
(lines 227-269 of `shell.py`).  Nodes are identified by the context name
(the code uses the contexts `local` and `remote`); tail hashes are carried
as the optional strings the code passes around. -/
inductive GutOp where
  | daemon (node : String) (path : String) (tailHash : Option String) (port : Nat)
  | init (node : String) (path : String)
  | setupOrigin (node : String) (path : String) (tailHash : Option String) (port : Nat)
  | sleep (seconds : Nat)
  | pull (node : String) (path : String)
  | assertFolderEmpty (node : String) (path : String)
  | ensureInitialCommit (node : String) (path : String)
  | shutdownCall
deriving DecidableEq

/-- The trace of `cross_init` (lines 227-235 of `shell.py`): adopt the
repository at `destPath` on `destNode` from `srcPath` on `srcNode`. -/
def cross_init (srcNode srcPath destNode destPath : String)
    (tailHash : Option String) (bindPort connectPort : Nat) : List GutOp :=
  [GutOp.daemon srcNode srcPath tailHash bindPort,
   GutOp.init destNode destPath,
   GutOp.setupOrigin destNode destPath tailHash connectPort,
   GutOp.sleep 2,
   GutOp.pull destNode destPath,
   GutOp.daemon destNode destPath tailHash bindPort]

/-- The trace of the compatibility/bootstrap branch of `sync`
(lines 237-269 of `shell.py`).  `l` and `r` are the local and remote tail
hashes; `freshTail` stands for the tail hash re-read after the initial
commit in the both-absent branch (line 258); `bp` and `cp` are the daemon
bind and connect ports. -/
def bootstrapTrace (l r : Option String) (lp rp : String)
    (freshTail : Option String) (bp cp : Nat) : List GutOp :=
  if pyTruthy l = false ∨ l ≠ r then
    if pyTruthy l = true ∧ pyTruthy r = false then
      GutOp.assertFolderEmpty "remote" rp :: cross_init "local" lp "remote" rp l bp cp
    else if pyTruthy r = true ∧ pyTruthy l = false then
      GutOp.assertFolderEmpty "local" lp :: cross_init "remote" rp "local" lp r bp cp
    else if pyTruthy l = false ∧ pyTruthy r = false then
      GutOp.assertFolderEmpty "remote" rp :: GutOp.assertFolderEmpty "local" lp ::
      GutOp.init "local" lp :: GutOp.ensureInitialCommit "local" lp ::
      cross_init "local" lp "remote" rp freshTail bp cp
    else
      [GutOp.shutdownCall]
  else
    [GutOp.daemon "local" lp l bp, GutOp.daemon "remote" rp l bp]

/-- Selects the repository-creating operations of a trace. -/
def isInitOp : GutOp → Bool
  | GutOp.init _ _ => true
  | _ => false

/-- Observable state of the path probed by `assert_folder_empty`: whether it
exists, whether it is a directory, and how many directory entries it holds. -/
structure PathStatus where
  pathExists : Bool
  isDir : Bool
  numEntries : Nat
deriving DecidableEq

/-- `assert_folder_empty` (lines 57-64 of `shell.py`) as its abort decision:
`true` means the guard prints its diagnostic and calls `shutdown()`, `false`
means it returns without effect. -/
def assert_folder_empty (p : PathStatus) : Bool :=
  p.pathExists && (!p.isDir || decide (0 < p.numEntries))

/-- Scans a trace and checks that every `init` was preceded by an
`assertFolderEmpty` on the same node and path. -/
def guardedInits (armed : List (String × String)) : List GutOp → Bool
  | [] => true
  | GutOp.assertFolderEmpty n p :: rest => guardedInits ((n, p) :: armed) rest
  | GutOp.init n p :: rest => decide ((n, p) ∈ armed) && guardedInits armed rest
  | _ :: rest => guardedInits armed rest

/-- Result of one run of `commit_and_update` (lines 275-308 of `shell.py`)
as seen by the surrounding loop. -/
structure CAUOutcome where
  pullInvoked : Bool
  caughtError : Bool
  propagated : Bool
deriving DecidableEq

/-- Control flow of the `try` block of `commit_and_update` (lines 303-308 of
`shell.py`), abstracted over the outcomes of the two backend calls it may
make: `commitRes` is the commit invocation (`Except.error` standing for a
raised `plumbum.commands.ProcessExecutionError`, `Except.ok b` for a normal
return saying whether a new revision was produced), and `pullRes` is the
pull on the other node, consulted only when the commit returned `true`.
`caughtError` records that the `except` clause ran (diagnostic and stack
trace printed); `propagated` records a backend execution error escaping the
operation. -/
def commitAndUpdateFlow (commitRes : Except Unit Bool) (pullRes : Except Unit Unit) :
    CAUOutcome :=
  match commitRes with
  | Except.error _ => ⟨false, true, false⟩
  | Except.ok false => ⟨false, false, false⟩
  | Except.ok true =>
    match pullRes with
    | Except.error _ => ⟨true, true, false⟩
    | Except.ok _ => ⟨true, false, false⟩

/-- The two watch streams feeding the sync loop, tagged `'local'` and
`'remote'` at lines 319-320 of `shell.py`. -/
inductive SysId where
  | localSys
  | remoteSys
deriving DecidableEq

/-- The `.gut` metadata directory name tested at line 346 of `shell.py`. -/
def gutDirName : List Char := ['.', 'g', 'u', 't']

/-- The `.gutignore` ignore-file name tested at line 350 of `shell.py`. -/
def gutignoreName : List Char := ['.', 'g', 'u', 't', 'i', 'g', 'n', 'o', 'r', 'e']

/-- The reserved shutdown sentinel string injected into the event queue
(line 311 of `shell.py`). -/
def SHUTDOWN_STR : String := "3qo4c8h56t349yo57yfv534wto8i7435oi5"

/-- Mutable state of the sync loop (lines 329-330 of `shell.py`): `changed`
models the insertion-ordered dict from system to its set of pending paths,
`changed_ignore` the set of systems whose ignore file changed. -/
structure LoopState where
  changed : List (SysId × List (List Char))
  changed_ignore : List SysId
deriving DecidableEq

/-- The state both accumulators start from (and return to after a flush). -/
def emptyLoopState : LoopState := ⟨[], []⟩

/-- `changed[system].add(path)` with dict autovivification (lines 347-349 of
`shell.py`): a missing key is appended, an existing key's path set gains the
path. -/
def addPath (changed : List (SysId × List (List Char))) (sys : SysId)
    (p : List Char) : List (SysId × List (List Char)) :=
  match changed with
  | [] => [(sys, [p])]
  | (s, ps) :: rest =>
    if s = sys then (s, ps.insert p) :: rest else (s, ps) :: addPath rest sys p

/-- Looks a system's pending path set up in the accumulator (empty when the
system has no entry). -/
def lookupChanged : List (SysId × List (List Char)) → SysId → List (List Char)
  | [], _ => []
  | (s, ps) :: rest, sys => if s = sys then ps else lookupChanged rest sys

/-- Handling of one dequeued change event by the sync loop (lines 343-356 of
`shell.py`): split the path on the OS separator; drop the event when `.gut`
is one of the components; otherwise record the path for its origin system
and, when the last component is `.gutignore`, mark that system for a full
untracked rescan. -/
def processEvent (osSep : Char) (st : LoopState) (sys : SysId) (path : List Char) :
    LoopState :=
  let parts := path.splitOn osSep
  if gutDirName ∈ parts then st
  else
    let changed := addPath st.changed sys path
    if parts.getLastD [] = gutignoreName then
      ⟨changed, st.changed_ignore.insert sys⟩
    else
      ⟨changed, st.changed_ignore⟩

/-- One `commit_and_update(system, paths, update_untracked)` call recorded by
a debounce flush. -/
structure FlushCall where
  system : SysId
  paths : List (List Char)
  updateUntracked : Bool
deriving DecidableEq

/-- The flush a debounce timeout performs (lines 336-339 of `shell.py`): one
`commit_and_update` per system holding pending changes, in accumulator
order, with the rescan flag set iff that system's ignore file changed. -/
def flushCalls (st : LoopState) : List FlushCall :=
  st.changed.map (fun e => ⟨e.1, e.2, decide (e.1 ∈ st.changed_ignore)⟩)

/-- A value dequeued from the shared event queue: either a change event, the
shutdown sentinel, or a debounce-window timeout (only possible while changes
are pending, since the loop applies `wait_for` only then). -/
inductive SyncEvent where
  | shutdownSentinel
  | fsEvent (sys : SysId) (path : List Char)
deriving DecidableEq

/-- One iteration's input to the sync loop. -/
inductive QueueStep where
  | timeout
  | item (e : SyncEvent)
deriving DecidableEq

/-- Observable outcome of running the sync loop on a finite schedule of
queue outcomes: the flush calls it issued, whether it terminated (only the
sentinel breaks the loop), and the accumulator state it was left in. -/
structure LoopResult where
  flushes : List FlushCall
  terminated : Bool
  finalState : LoopState
deriving DecidableEq

/-- The sync loop of `sync` (lines 331-356 of `shell.py`) run over a finite
schedule: a timeout flushes and clears the accumulators, the sentinel breaks
out of the loop immediately, and any other event is merged by
`processEvent`. -/
def runSyncLoop (osSep : Char) (st : LoopState) : List QueueStep → LoopResult
  | [] => ⟨[], false, st⟩
  | QueueStep.timeout :: rest =>
    let r := runSyncLoop osSep emptyLoopState rest
    ⟨flushCalls st ++ r.flushes, r.terminated, r.finalState⟩
  | QueueStep.item SyncEvent.shutdownSentinel :: _ => ⟨[], true, st⟩
  | QueueStep.item (SyncEvent.fsEvent sys p) :: rest =>
    runSyncLoop osSep (processEvent osSep st sys p) rest

/-- One orchestrator step between watcher attachment and the sync loop. -/
inductive SyncAction where
  | watchForChanges (sys : SysId)
  | commitAndUpdateCall (sys : SysId) (updateUntracked : Bool)
  | pullCall (sys : SysId)
deriving DecidableEq

/-- The straight-line sequence `sync` executes between registering the
shutdown hook and entering the `while True` loop (lines 319-327 of
`shell.py`): attach both watchers, flush both sides unconditionally with
`update_untracked=True`, then pull on both sides. -/
def preLoopActions : List SyncAction :=
  [SyncAction.watchForChanges SysId.localSys,
   SyncAction.watchForChanges SysId.remoteSys,
   SyncAction.commitAndUpdateCall SysId.remoteSys true,
   SyncAction.commitAndUpdateCall SysId.localSys true,
   SyncAction.pullCall SysId.remoteSys,
   SyncAction.pullCall SysId.localSys]

/-- Selects the commit-and-update and pull steps of an orchestrator
sequence. -/
def isFlushOrPull : SyncAction → Bool
  | SyncAction.commitAndUpdateCall _ _ => true
  | SyncAction.pullCall _ => true
  | _ => false

theorem isEmpty_eq_true_iff {α : Type} (l : List α) : l.isEmpty = true ↔ l = [] := by
  cases l <;> simp [List.isEmpty]

/-- Claim C1: the session-start compatibility decision is a pure function of
the pair of tail hashes and matches the decision table: both present and
equal is compatible, exactly one present adopts the absent side from the
present side, both absent starts both from scratch with the local repository
created first, and both present but differing is the fatal branch. -/
theorem syncDecision_table (l r : Option String) :
    (pyTruthy l = true → pyTruthy r = true → l = r →
       syncDecision l r = SyncDecision.compatible) ∧
    (pyTruthy l = true → pyTruthy r = false →
       syncDecision l r = SyncDecision.adoptRemoteFromLocal) ∧
    (pyTruthy l = false → pyTruthy r = true →
       syncDecision l r = SyncDecision.adoptLocalFromRemote) ∧
    (pyTruthy l = false → pyTruthy r = false →
       syncDecision l r = SyncDecision.initBoth) ∧
    (pyTruthy l = true → pyTruthy r = true → l ≠ r →
       syncDecision l r = SyncDecision.fatalIncompatible) ∧
    (pyTruthy l = false → pyTruthy r = false →
       ∀ (lp rp : String) (ft : Option String) (bp cp : Nat),
         (bootstrapTrace l r lp rp ft bp cp).filter isInitOp =
           [GutOp.init "local" lp, GutOp.init "remote" rp]) := by
  refine ⟨?_, ?_, ?_, ?_, ?_, ?_⟩
  · intro h1 h2 h3
    simp [syncDecision, h1, h2, h3]
  · intro h1 h2
    have hne : l ≠ r := by
      intro he
      rw [he, h2] at h1
      cases h1
    simp [syncDecision, h1, h2, hne]
  · intro h1 h2
    simp [syncDecision, h1, h2]
  · intro h1 h2
    simp [syncDecision, h1, h2]
  · intro h1 h2 h3
    simp [syncDecision, h1, h2, h3]
  · intro h1 h2 lp rp ft bp cp
    simp [bootstrapTrace, cross_init, h1, h2, isInitOp]

theorem syncDecision_table_witness :
    pyTruthy (some "a") = true ∧
    syncDecision (some "a") (some "a") = SyncDecision.compatible :=
  ⟨by decide, (syncDecision_table (some "a") (some "a")).1 (by decide) (by decide) rfl⟩

/-- Claim C2: the staging prefix computed by `commit_and_update` is an
ancestor-or-equal directory of every changed path, cut at a complete segment
boundary of the platform separator: either it is the root `"."`, or the
prefix followed by the separator is a leading segment of every changed path.
The empty set of changed paths, and any set whose trimmed common prefix is
empty, yields the root. -/
theorem commonPrefixTrim_spec (w : Bool) (P : List (List Char)) :
    (P = [] → commonPrefixTrim w P = ['.']) ∧
    (rpartitionBefore (sepOf w) (commonPrefixAll P) = [] →
       commonPrefixTrim w P = ['.']) ∧
    (commonPrefixTrim w P = ['.'] ∨
       ∀ q ∈ P, listPre (commonPrefixTrim w P ++ [sepOf w]) q) := by
  refine ⟨?_, ?_, ?_⟩
  · intro h
    subst h
    rfl
  · intro h
    unfold commonPrefixTrim
    by_cases hP : P.isEmpty = true
    · simp [hP]
    · simp [hP, h]
  · by_cases hP : P.isEmpty = true
    · left
      unfold commonPrefixTrim
      simp [hP]
    · by_cases hnil : rpartitionBefore (sepOf w) (commonPrefixAll P) = []
      · left
        unfold commonPrefixTrim
        simp [hP, hnil]
      · right
        intro q hq
        have heq : commonPrefixTrim w P =
            rpartitionBefore (sepOf w) (commonPrefixAll P) := by
          unfold commonPrefixTrim
          simp [hP, hnil]
        rw [heq]
        rcases rpartitionBefore_pre (sepOf w) (commonPrefixAll P) with h | h
        · exact absurd h hnil
        · exact listPre_trans h (commonPrefixAll_pre P q hq)

theorem commonPrefixTrim_spec_witness :
    commonPrefixTrim false [['t', '/', 'a'], ['t', '/', 'b']] = ['.'] ∨
    ∀ q ∈ [['t', '/', 'a'], ['t', '/', 'b']],
      listPre (commonPrefixTrim false [['t', '/', 'a'], ['t', '/', 'b']] ++
        [sepOf false]) q :=
  (commonPrefixTrim_spec false [['t', '/', 'a'], ['t', '/', 'b']]).2.2

/-- Counterexample to claim C3 as stated: when the commit succeeds with a
new revision and the pull on the other node raises a backend execution
error, the error does not propagate — the shared `except` clause catches it
and emits the diagnostic, because the pull sits inside the same `try` block
as the commit (lines 303-308 of `shell.py`). -/
theorem commitAndUpdateFlow_pull_error_caught :
    (commitAndUpdateFlow (Except.ok true) (Except.error ())).propagated = false ∧
    (commitAndUpdateFlow (Except.ok true) (Except.error ())).caughtError = true := by
  decide

/-- Claim C3 (amended): inside `commit_and_update` the guard covers the
whole commit-then-pull block: a backend execution error raised by either the
commit or the pull triggered on the other node is caught with a diagnostic
and never propagates out of the operation, and the diagnostic fires exactly
when one of the two calls raised. -/
theorem commitAndUpdateFlow_no_propagation (c : Except Unit Bool)
    (p : Except Unit Unit) :
    (commitAndUpdateFlow c p).propagated = false ∧
    ((commitAndUpdateFlow c p).caughtError = true ↔
       c = Except.error () ∨ (c = Except.ok true ∧ p = Except.error ())) := by
  rcases c with u | b
  · cases u
    rcases p with v | v <;> cases v <;> simp [commitAndUpdateFlow]
  · rcases p with v | v <;> cases v <;> cases b <;> simp [commitAndUpdateFlow]

theorem commitAndUpdateFlow_no_propagation_witness :
    (commitAndUpdateFlow (Except.error ()) (Except.ok ())).propagated = false :=
  (commitAndUpdateFlow_no_propagation (Except.error ()) (Except.ok ())).1

theorem mem_lookupChanged_addPath (changed : List (SysId × List (List Char)))
    (sys : SysId) (p : List Char) :
    p ∈ lookupChanged (addPath changed sys p) sys := by
  induction changed with
  | nil => simp [addPath, lookupChanged]
  | cons e rest ih =>
    obtain ⟨s, ps⟩ := e
    by_cases h : s = sys
    · subst h
      simp [addPath, lookupChanged, List.mem_insert_iff]
    · simp [addPath, lookupChanged, h, ih]

/-- Claim C4: a change event whose path does not contain the `.gut`
metadata directory as a component is merged into its origin system's pending
change set, and when the path's last component is `.gutignore` the origin is
additionally marked for a full untracked rescan (otherwise the rescan marks
are untouched); an event whose path is under the metadata directory leaves
the loop state unchanged. -/
theorem processEvent_spec (sep : Char) (st : LoopState) (sys : SysId)
    (p : List Char) :
    (gutDirName ∉ p.splitOn sep →
       p ∈ lookupChanged (processEvent sep st sys p).changed sys ∧
       ((p.splitOn sep).getLastD [] = gutignoreName →
          sys ∈ (processEvent sep st sys p).changed_ignore) ∧
       ((p.splitOn sep).getLastD [] ≠ gutignoreName →
          (processEvent sep st sys p).changed_ignore = st.changed_ignore)) ∧
    (gutDirName ∈ p.splitOn sep → processEvent sep st sys p = st) := by
  constructor
  · intro hnot
    have hpe : processEvent sep st sys p =
        (if (p.splitOn sep).getLastD [] = gutignoreName then
          (⟨addPath st.changed sys p, st.changed_ignore.insert sys⟩ : LoopState)
        else ⟨addPath st.changed sys p, st.changed_ignore⟩) := by
      simp only [processEvent]
      rw [if_neg hnot]
    by_cases hlast : (p.splitOn sep).getLastD [] = gutignoreName
    · rw [hpe, if_pos hlast]
      refine ⟨mem_lookupChanged_addPath st.changed sys p, ?_, ?_⟩
      · intro _
        exact List.mem_insert_self sys st.changed_ignore
      · intro hc
        exact absurd hlast hc
    · rw [hpe, if_neg hlast]
      exact ⟨mem_lookupChanged_addPath st.changed sys p,
             fun hc => absurd hc hlast, fun _ => rfl⟩
  · intro hmem
    simp only [processEvent]
    rw [if_pos hmem]

theorem processEvent_spec_witness :
    gutDirName ∉ (['a', '/', 'b'].splitOn '/') ∧
    ['a', '/', 'b'] ∈ lookupChanged
      (processEvent '/' emptyLoopState SysId.localSys ['a', '/', 'b']).changed
      SysId.localSys :=
  ⟨by decide,
   ((processEvent_spec '/' emptyLoopState SysId.localSys ['a', '/', 'b']).1
      (by decide)).1⟩

/-- Claim C5: `cross_init` performs exactly, and in this order: daemon on
the source at the shared bind port advertising the agreed tail hash, fresh
repository at the destination, destination upstream wired to the source via
the connect port, a brief pause, a pull into the destination, and finally a
daemon on the destination. -/
theorem cross_init_steps (srcNode srcPath destNode destPath : String)
    (tailHash : Option String) (bindPort connectPort : Nat) :
    cross_init srcNode srcPath destNode destPath tailHash bindPort connectPort =
      [GutOp.daemon srcNode srcPath tailHash bindPort,
       GutOp.init destNode destPath,
       GutOp.setupOrigin destNode destPath tailHash connectPort,
       GutOp.sleep 2,
       GutOp.pull destNode destPath,
       GutOp.daemon destNode destPath tailHash bindPort] := rfl

/-- Claim C6: dequeuing the shutdown sentinel terminates the sync loop
unconditionally — from any accumulator state, including mid-debounce — with
no flush issued, no further schedule consumed, and the sentinel not merged
into the pending change sets (the state is left exactly as it was). -/
theorem runSyncLoop_shutdown (osSep : Char) (st : LoopState)
    (rest : List QueueStep) :
    runSyncLoop osSep st (QueueStep.item SyncEvent.shutdownSentinel :: rest) =
      ⟨[], true, st⟩ := rfl

/-- Claim C7: between watcher attachment and the sync loop, the orchestrator
issues exactly one unconditional commit-and-update per side with the rescan
flag set — remote then local — followed by exactly one pull per side, in
that order. -/
theorem preLoop_flush_then_pull :
    preLoopActions.filter isFlushOrPull =
      [SyncAction.commitAndUpdateCall SysId.remoteSys true,
       SyncAction.commitAndUpdateCall SysId.localSys true,
       SyncAction.pullCall SysId.remoteSys,
       SyncAction.pullCall SysId.localSys] := rfl

/-- Claim C8: `get_tail_hash` returns the (stripped) output of the
parentless-commit query exactly when the repository marker exists and that
output is non-empty after stripping; it returns `none` when the marker is
missing or the query output is empty — an absent result, never an abort. -/
theorem get_tail_hash_spec (gutMarkerExists : Bool) (out : List Char) :
    (gutMarkerExists = true → pyStrip out ≠ [] →
       get_tail_hash gutMarkerExists out = some (pyStrip out)) ∧
    (gutMarkerExists = false → get_tail_hash gutMarkerExists out = none) ∧
    (pyStrip out = [] → get_tail_hash gutMarkerExists out = none) := by
  refine ⟨?_, ?_, ?_⟩
  · intro h1 h2
    simp [get_tail_hash, h1, isEmpty_eq_true_iff, h2]
  · intro h1
    simp [get_tail_hash, h1]
  · intro h1
    cases gutMarkerExists <;> simp [get_tail_hash, h1, isEmpty_eq_true_iff]

theorem get_tail_hash_spec_witness :
    pyStrip ['a', 'b', 'c'] ≠ [] ∧
    get_tail_hash true ['a', 'b', 'c'] = some (pyStrip ['a', 'b', 'c']) :=
  ⟨by decide, (get_tail_hash_spec true ['a', 'b', 'c']).1 rfl (by decide)⟩

/-- Claim C9: the destination-emptiness guard aborts exactly when the target
path exists and is either not a directory or a non-empty directory, and in
every branch of the bootstrap every repository-creating `init` is preceded
in the trace by this guard on the same node and path. -/
theorem assert_folder_empty_spec :
    (∀ p : PathStatus, assert_folder_empty p = true ↔
       p.pathExists = true ∧ (p.isDir = false ∨ 0 < p.numEntries)) ∧
    (∀ (l r : Option String) (lp rp : String) (freshTail : Option String)
       (bp cp : Nat),
       guardedInits [] (bootstrapTrace l r lp rp freshTail bp cp) = true) := by
  constructor
  · intro p
    simp [assert_folder_empty, Bool.and_eq_true, Bool.or_eq_true,
      Bool.not_eq_true', decide_eq_true_eq]
  · intro l r lp rp ft bp cp
    unfold bootstrapTrace
    split_ifs <;>
      simp [guardedInits, cross_init, List.mem_cons, List.mem_singleton]

theorem assert_folder_empty_spec_witness :
    assert_folder_empty ⟨true, true, 1⟩ = true :=
  (assert_folder_empty_spec.1 ⟨true, true, 1⟩).mpr ⟨rfl, Or.inr (by decide)⟩

/-- Claim C10: when the shutdown sentinel arrives while changes are pending
(mid-debounce), the loop exits at once and the accumulated changes are
discarded — no commit-and-update flush is ever issued for them. -/
theorem runSyncLoop_shutdown_discards (osSep : Char) (st : LoopState)
    (rest : List QueueStep) (h : st.changed ≠ []) :
    (runSyncLoop osSep st
       (QueueStep.item SyncEvent.shutdownSentinel :: rest)).flushes = [] ∧
    (runSyncLoop osSep st
       (QueueStep.item SyncEvent.shutdownSentinel :: rest)).terminated = true :=
  ⟨rfl, rfl⟩

theorem runSyncLoop_shutdown_discards_witness :
    (⟨[(SysId.localSys, [['a']])], []⟩ : LoopState).changed ≠ [] ∧
    ((runSyncLoop '/' ⟨[(SysId.localSys, [['a']])], []⟩
        [QueueStep.item SyncEvent.shutdownSentinel]).flushes = [] ∧
     (runSyncLoop '/' ⟨[(SysId.localSys, [['a']])], []⟩
        [QueueStep.item SyncEvent.shutdownSentinel]).terminated = true) :=
  ⟨by decide,
   runSyncLoop_shutdown_discards '/' ⟨[(SysId.localSys, [['a']])], []⟩ []
     (by decide)⟩
